import Mathlib

/-!
Verification development for the perftest capacity-modeling pipeline.

The definitions below are shallow embeddings of the two core source files:

* `test_rabbitmq.py` — the adaptive maximum-stable-throughput search
  (coarse exponential phase plus binary-search refinement), the per-trial
  stability classification, and the compact-output line processing.
* `normalize_metrics.py` — the DB/MQ metrics normalizer and the
  SLO-driven capacity extrapolation.

Python machine floats are modelled as exact rationals (`ℚ`), Python ints
as `ℕ`/`ℤ` with `int()` truncation of a nonnegative value rendered as
`Int.floor`/`Int.toNat`, and the external per-rate trial outcome as an
oracle `trial : ℕ → Bool`.
-/

namespace PerfSearch

/-- Embedding of the coarse-phase rate update in `main` of `test_rabbitmq.py`:
`rate = int(max(rate + 1, rate * args.growth))`.  The argument of `int()` is
at least `rate + 1 ≥ 1`, so Python's truncation toward zero is the floor. -/
def nextRate (growth : ℚ) (rate : ℕ) : ℕ :=
  (⌊max ((rate : ℚ) + 1) ((rate : ℚ) * growth)⌋).toNat

lemma nextRate_ge (growth : ℚ) (rate : ℕ) : rate + 1 ≤ nextRate growth rate := by
  have h2 : (rate : ℤ) + 1 ≤ ⌊max ((rate : ℚ) + 1) ((rate : ℚ) * growth)⌋ := by
    rw [Int.le_floor]
    push_cast
    exact le_max_left _ _
  unfold nextRate
  omega

/-- Result of the coarse exponential phase of `main` in `test_rabbitmq.py`:
the last successful rate (`last_ok`, initially 0), the first failing rate
(`hi`, `none` when no failure was observed), and the ordered list of probed
rates. -/
structure CoarseResult where
  lastOk : ℕ
  hi : Option ℕ
  probes : List ℕ
deriving DecidableEq

/-- Embedding of the coarse-phase loop of `main` in `test_rabbitmq.py`:
`while rate <= args.max_rate:` run a trial at `rate`; on success record
`last_ok = rate` and advance `rate = int(max(rate + 1, rate * growth))`;
on failure record `hi = rate` and stop. -/
def coarsePhase (trial : ℕ → Bool) (growth : ℚ) (maxRate rate lastOk : ℕ) :
    CoarseResult :=
  if h : rate ≤ maxRate then
    if trial rate then
      let c := coarsePhase trial growth maxRate (nextRate growth rate) rate
      { lastOk := c.lastOk, hi := c.hi, probes := rate :: c.probes }
    else
      { lastOk := lastOk, hi := some rate, probes := [rate] }
  else
    { lastOk := lastOk, hi := none, probes := [] }
termination_by maxRate + 1 - rate
decreasing_by
  have := nextRate_ge growth rate
  omega

/-- Embedding of the refinement stop tolerance in `main` of
`test_rabbitmq.py`: `max(100, int(0.02 * max(1, lo)))`. -/
def tolerance (lo : ℕ) : ℕ :=
  max 100 (⌊(0.02 : ℚ) * ((max 1 lo : ℕ) : ℚ)⌋).toNat

lemma tolerance_ge (lo : ℕ) : 100 ≤ tolerance lo := le_max_left _ _

lemma tolerance_eq (lo : ℕ) : tolerance lo = max 100 (max 1 lo / 50) := by
  unfold tolerance
  have h3 : (0.02 : ℚ) * ((max 1 lo : ℕ) : ℚ) =
      (((max 1 lo : ℕ) : ℤ) : ℚ) / ((50 : ℕ) : ℚ) := by
    push_cast
    ring
  rw [h3, Rat.floor_intCast_div_natCast]
  omega

/-- Final bracket of the refinement phase plus the ordered list of probed
midpoints. -/
structure RefineResult where
  lo : ℕ
  hi : ℕ
  probes : List ℕ
deriving DecidableEq

/-- Embedding of the binary-search refinement loop of `main` in
`test_rabbitmq.py`: `while hi - lo > max(100, int(0.02 * max(1, lo))):`
probe `mid = (lo + hi) // 2`; on success `lo = mid`, on failure `hi = mid`. -/
def refinePhase (trial : ℕ → Bool) (lo hi : ℕ) : RefineResult :=
  if h : tolerance lo < hi - lo then
    let mid := (lo + hi) / 2
    if trial mid then
      let r := refinePhase trial mid hi
      { lo := r.lo, hi := r.hi, probes := mid :: r.probes }
    else
      let r := refinePhase trial lo mid
      { lo := r.lo, hi := r.hi, probes := mid :: r.probes }
  else
    { lo := lo, hi := hi, probes := [] }
termination_by hi - lo
decreasing_by
  · have := tolerance_ge lo
    omega
  · have := tolerance_ge lo
    omega

/-- The three terminal reports of `main` in `test_rabbitmq.py`:
`noSuccess` is the "no successful rate found" message, `capped` the
"max stable throughput ≥ last_ok (reached max_rate)" message, and
`estimate` the final "estimated max stable throughput: lo" message. -/
inductive SearchOutcome where
  | noSuccess : SearchOutcome
  | capped : ℕ → SearchOutcome
  | estimate : ℕ → SearchOutcome
deriving DecidableEq

/-- Embedding of the reporting control flow of `main` in `test_rabbitmq.py`:
after the coarse phase, `if last_ok == 0 and hi is None:` report no
successful rate; `if hi is None:` report the capped result; otherwise run
the refinement on `[last_ok, hi)` and report its final `lo`. -/
def mainSearch (trial : ℕ → Bool) (growth : ℚ) (startRate maxRate : ℕ) :
    SearchOutcome :=
  let c := coarsePhase trial growth maxRate startRate 0
  if c.lastOk = 0 ∧ c.hi = none then SearchOutcome.noSuccess
  else
    match c.hi with
    | none => SearchOutcome.capped c.lastOk
    | some h => SearchOutcome.estimate (refinePhase trial c.lastOk h).lo

/-- All rates probed by a run of `main` in `test_rabbitmq.py`, in order:
the coarse-phase probes followed by the refinement probes (the refinement
runs exactly when the coarse phase observed a failing `hi`). -/
def mainProbes (trial : ℕ → Bool) (growth : ℚ) (startRate maxRate : ℕ) :
    List ℕ :=
  let c := coarsePhase trial growth maxRate startRate 0
  match c.hi with
  | none => c.probes
  | some h => c.probes ++ (refinePhase trial c.lastOk h).probes

lemma coarsePhase_stop (trial : ℕ → Bool) (growth : ℚ) {maxRate rate : ℕ}
    (lastOk : ℕ) (h : maxRate < rate) :
    coarsePhase trial growth maxRate rate lastOk =
      { lastOk := lastOk, hi := none, probes := [] } := by
  unfold coarsePhase
  rw [dif_neg (by omega)]

lemma coarsePhase_fail (trial : ℕ → Bool) (growth : ℚ) {maxRate rate : ℕ}
    (lastOk : ℕ) (h : rate ≤ maxRate) (ht : trial rate = false) :
    coarsePhase trial growth maxRate rate lastOk =
      { lastOk := lastOk, hi := some rate, probes := [rate] } := by
  unfold coarsePhase
  rw [dif_pos h, ht]
  simp

lemma coarsePhase_succ (trial : ℕ → Bool) (growth : ℚ) {maxRate rate : ℕ}
    (lastOk : ℕ) (h : rate ≤ maxRate) (ht : trial rate = true) :
    coarsePhase trial growth maxRate rate lastOk =
      { lastOk := (coarsePhase trial growth maxRate (nextRate growth rate) rate).lastOk,
        hi := (coarsePhase trial growth maxRate (nextRate growth rate) rate).hi,
        probes :=
          rate :: (coarsePhase trial growth maxRate (nextRate growth rate) rate).probes } := by
  conv_lhs => unfold coarsePhase
  rw [dif_pos h, ht]
  simp

lemma refinePhase_stop (trial : ℕ → Bool) {lo hi : ℕ}
    (h : hi - lo ≤ tolerance lo) :
    refinePhase trial lo hi = { lo := lo, hi := hi, probes := [] } := by
  unfold refinePhase
  rw [dif_neg (by omega)]

lemma refinePhase_step (trial : ℕ → Bool) {lo hi : ℕ}
    (h : tolerance lo < hi - lo) :
    refinePhase trial lo hi =
      if trial ((lo + hi) / 2) then
        { lo := (refinePhase trial ((lo + hi) / 2) hi).lo,
          hi := (refinePhase trial ((lo + hi) / 2) hi).hi,
          probes := (lo + hi) / 2 :: (refinePhase trial ((lo + hi) / 2) hi).probes }
      else
        { lo := (refinePhase trial lo ((lo + hi) / 2)).lo,
          hi := (refinePhase trial lo ((lo + hi) / 2)).hi,
          probes := (lo + hi) / 2 :: (refinePhase trial lo ((lo + hi) / 2)).probes } := by
  conv_lhs => unfold refinePhase
  rw [dif_pos h]

/-- A trial oracle that fails at every rate. -/
def failTrial : ℕ → Bool := fun _ => false

/-- A trial oracle that succeeds at every rate. -/
def okTrial : ℕ → Bool := fun _ => true

/-- A trial oracle that succeeds at exactly the rates up to a fixed bound. -/
def stepTrial (bound : ℕ) : ℕ → Bool := fun r => decide (r ≤ bound)

lemma coarsePhase_probes_length (trial : ℕ → Bool) (growth : ℚ) :
    ∀ (n maxRate rate lastOk : ℕ), maxRate + 1 - rate ≤ n →
      (coarsePhase trial growth maxRate rate lastOk).probes.length ≤
        maxRate + 1 - rate := by
  intro n
  induction n with
  | zero =>
    intro maxRate rate lastOk hn
    rw [coarsePhase_stop _ _ _ (by omega)]
    simp
  | succ n ih =>
    intro maxRate rate lastOk hn
    by_cases hr : rate ≤ maxRate
    · cases ht : trial rate with
      | false =>
        rw [coarsePhase_fail _ _ _ hr ht]
        simp
        omega
      | true =>
        rw [coarsePhase_succ _ _ _ hr ht]
        have hnx := nextRate_ge growth rate
        have hrec := ih maxRate (nextRate growth rate) rate (by omega)
        simp only [List.length_cons]
        omega
    · rw [coarsePhase_stop _ _ _ (by omega)]
      simp

lemma coarsePhase_lastOk_min (trial : ℕ → Bool) (growth : ℚ) :
    ∀ (n maxRate rate lastOk : ℕ), maxRate + 1 - rate ≤ n →
      min lastOk rate ≤ (coarsePhase trial growth maxRate rate lastOk).lastOk := by
  intro n
  induction n with
  | zero =>
    intro maxRate rate lastOk hn
    rw [coarsePhase_stop _ _ _ (by omega)]
    simp
  | succ n ih =>
    intro maxRate rate lastOk hn
    by_cases hr : rate ≤ maxRate
    · cases ht : trial rate with
      | false =>
        rw [coarsePhase_fail _ _ _ hr ht]
        simp
      | true =>
        rw [coarsePhase_succ _ _ _ hr ht]
        have hnx := nextRate_ge growth rate
        have hrec := ih maxRate (nextRate growth rate) rate (by omega)
        simp only []
        omega
    · rw [coarsePhase_stop _ _ _ (by omega)]
      simp

lemma nextRate_eq_max (growth : ℚ) (r : ℕ) :
    nextRate growth r = max (r + 1) (⌊(r : ℚ) * growth⌋).toNat := by
  unfold nextRate
  have hmax : ⌊max ((r : ℚ) + 1) ((r : ℚ) * growth)⌋ =
      max ⌊((r : ℚ) + 1)⌋ ⌊(r : ℚ) * growth⌋ := Int.floor_mono.map_max
  rw [hmax]
  have h1 : ⌊((r : ℚ) + 1)⌋ = (r : ℤ) + 1 := by
    rw [show ((r : ℚ) + 1) = (((r : ℤ) + 1 : ℤ) : ℚ) by push_cast; ring]
    exact Int.floor_intCast _
  rw [h1]
  omega

/-- C1 (amended): the engine reports "no successful rate found" exactly when
the coarse loop never ran a trial, i.e. when `maxRate < startRate`; when the
very first trial fails, `hi = startRate` is recorded with `last_ok = 0` and
the binary-search refinement runs on the bracket `[0, startRate)` (its probes
are part of the run), reporting the refinement's final `lo` — the refinement
is not guarded by `last_ok > 0`. -/
theorem C1_search_reports (trial : ℕ → Bool) (growth : ℚ) (startRate maxRate : ℕ)
    (h1 : 1 ≤ startRate) :
    (mainSearch trial growth startRate maxRate = SearchOutcome.noSuccess ↔
      maxRate < startRate) ∧
    (startRate ≤ maxRate → trial startRate = false →
      mainSearch trial growth startRate maxRate =
        SearchOutcome.estimate (refinePhase trial 0 startRate).lo ∧
      mainProbes trial growth startRate maxRate =
        startRate :: (refinePhase trial 0 startRate).probes) := by
  constructor
  · constructor
    · intro hns
      by_contra hgt
      push_neg at hgt
      cases ht : trial startRate with
      | false =>
        simp only [mainSearch] at hns
        rw [coarsePhase_fail _ _ _ hgt ht] at hns
        simp at hns
      | true =>
        have hnx := nextRate_ge growth startRate
        have hmin := coarsePhase_lastOk_min trial growth
          (maxRate + 1 - nextRate growth startRate) maxRate
          (nextRate growth startRate) startRate (le_refl _)
        simp only [mainSearch] at hns
        rw [coarsePhase_succ _ _ _ hgt ht] at hns
        cases hop : (coarsePhase trial growth maxRate (nextRate growth startRate)
            startRate).hi with
        | none =>
          rw [hop] at hns
          simp only [show (coarsePhase trial growth maxRate (nextRate growth startRate)
            startRate).lastOk ≠ 0 by omega] at hns
          simp at hns
        | some hh =>
          rw [hop] at hns
          simp at hns
    · intro hgt
      simp only [mainSearch]
      rw [coarsePhase_stop _ _ _ hgt]
      simp
  · intro hle ht
    constructor
    · simp only [mainSearch]
      rw [coarsePhase_fail _ _ _ hle ht]
      simp
    · simp only [mainProbes]
      rw [coarsePhase_fail _ _ _ hle ht]
      simp

/-- C1 witness: with a trial oracle failing everywhere and
`startRate = 1000 ≤ maxRate`, the run ends in the refinement's estimate. -/
theorem C1_witness :
    mainSearch failTrial 2 1000 1000000 =
      SearchOutcome.estimate (refinePhase failTrial 0 1000).lo :=
  ((C1_search_reports failTrial 2 1000 1000000 (by norm_num)).2
    (by norm_num) rfl).1

lemma failTrial_refine_1000 :
    refinePhase failTrial 0 1000 = { lo := 0, hi := 62, probes := [500, 250, 125, 62] } := by
  have e62 : refinePhase failTrial 0 62 = { lo := 0, hi := 62, probes := [] } :=
    refinePhase_stop _ (by rw [tolerance_eq]; decide)
  have e125 : refinePhase failTrial 0 125 = { lo := 0, hi := 62, probes := [62] } := by
    rw [refinePhase_step _ (by rw [tolerance_eq]; decide)]
    norm_num [failTrial, e62]
  have e250 : refinePhase failTrial 0 250 = { lo := 0, hi := 62, probes := [125, 62] } := by
    rw [refinePhase_step _ (by rw [tolerance_eq]; decide)]
    norm_num [failTrial, e125]
  have e500 : refinePhase failTrial 0 500 =
      { lo := 0, hi := 62, probes := [250, 125, 62] } := by
    rw [refinePhase_step _ (by rw [tolerance_eq]; decide)]
    norm_num [failTrial, e250]
  rw [refinePhase_step _ (by rw [tolerance_eq]; decide)]
  norm_num [failTrial, e500]

/-- C1 counterexample to the claim as stated: the very first coarse trial
fails (at `startRate = 1000`), yet the engine does not report "no successful
rate found" — it runs four refinement trials (at rates 500, 250, 125, 62)
and reports an estimate. -/
theorem C1_counterexample :
    failTrial 1000 = false ∧
    mainSearch failTrial 2 1000 1000000 ≠ SearchOutcome.noSuccess ∧
    mainProbes failTrial 2 1000 1000000 = [1000, 500, 250, 125, 62] := by
  refine ⟨rfl, ?_, ?_⟩
  · simp only [mainSearch]
    rw [coarsePhase_fail _ _ _ (by norm_num) rfl]
    simp
  · simp only [mainProbes]
    rw [coarsePhase_fail _ _ _ (by norm_num) rfl]
    simp [failTrial_refine_1000]

/-- C2 (amended): the engine performs no rejection or clamping of a growth
factor `growth ≤ 1` — the coarse phase runs trials normally (whenever
`startRate ≤ maxRate` at least one trial runs); non-termination does not
arise because for `growth ≤ 1` the rate update degenerates to `rate + 1`. -/
theorem C2_growth_not_validated (growth : ℚ) (hg : growth ≤ 1) :
    (∀ r : ℕ, nextRate growth r = r + 1) ∧
    (∀ (trial : ℕ → Bool) (startRate maxRate : ℕ), startRate ≤ maxRate →
      (coarsePhase trial growth maxRate startRate 0).probes ≠ []) := by
  constructor
  · intro r
    rw [nextRate_eq_max]
    have hle : (r : ℚ) * growth ≤ (r : ℚ) := by
      calc (r : ℚ) * growth ≤ (r : ℚ) * 1 :=
            mul_le_mul_of_nonneg_left hg (by positivity)
        _ = r := mul_one _
    have hfl : ⌊(r : ℚ) * growth⌋ ≤ (r : ℤ) := by
      calc ⌊(r : ℚ) * growth⌋ ≤ ⌊(r : ℚ)⌋ := Int.floor_mono hle
        _ = r := Int.floor_natCast r
    omega
  · intro trial startRate maxRate hle
    cases ht : trial startRate with
    | false =>
      rw [coarsePhase_fail _ _ _ hle ht]
      simp
    | true =>
      rw [coarsePhase_succ _ _ _ hle ht]
      simp

/-- C2 witness: with growth factor 1/2 the rate update at rate 7 is 8. -/
theorem C2_witness : nextRate (1/2) 7 = 8 :=
  (C2_growth_not_validated (1/2) (by norm_num)).1 7

/-- C2 counterexample to the claim as stated: with growth factor 1/2 ≤ 1
the configuration is not rejected — the coarse phase runs trials at rates
1, 2, 3. -/
theorem C2_counterexample :
    ((1 : ℚ)/2 ≤ 1) ∧ (coarsePhase okTrial (1/2) 3 1 0).probes = [1, 2, 3] := by
  refine ⟨by norm_num, ?_⟩
  have h1 : nextRate (1/2 : ℚ) 1 = 2 := by norm_num [nextRate_eq_max, Int.toNat_ofNat]
  have h2 : nextRate (1/2 : ℚ) 2 = 3 := by norm_num [nextRate_eq_max, Int.toNat_ofNat]
  have h3 : nextRate (1/2 : ℚ) 3 = 4 := by norm_num [nextRate_eq_max, Int.toNat_ofNat]
  rw [coarsePhase_succ _ _ _ (by norm_num) rfl, h1,
    coarsePhase_succ _ _ _ (by norm_num) rfl, h2,
    coarsePhase_succ _ _ _ (by norm_num) rfl, h3,
    coarsePhase_stop _ _ _ (by norm_num)]

/-- C3 (amended): the coarse-phase update applies Python `int()` truncation,
i.e. after every successful trial at rate `r` the next probed rate is
`max(r + 1, floor(r * growth))` — the floor of `r * growth`, not the nearest
integer. -/
theorem C3_next_rate (trial : ℕ → Bool) (growth : ℚ) (maxRate r lastOk : ℕ) :
    nextRate growth r = max (r + 1) (⌊(r : ℚ) * growth⌋).toNat ∧
    (r ≤ maxRate → trial r = true →
      coarsePhase trial growth maxRate r lastOk =
        { lastOk := (coarsePhase trial growth maxRate
            (max (r + 1) (⌊(r : ℚ) * growth⌋).toNat) r).lastOk,
          hi := (coarsePhase trial growth maxRate
            (max (r + 1) (⌊(r : ℚ) * growth⌋).toNat) r).hi,
          probes := r :: (coarsePhase trial growth maxRate
            (max (r + 1) (⌊(r : ℚ) * growth⌋).toNat) r).probes }) := by
  refine ⟨nextRate_eq_max growth r, fun hr ht => ?_⟩
  rw [coarsePhase_succ _ _ _ hr ht, nextRate_eq_max]

/-- C3 witness: after a successful trial at rate 10 with growth 127/100 the
next probed rate is `max(11, floor(12.7)) = 12`. -/
theorem C3_witness :
    coarsePhase okTrial (127/100) 1000000 10 0 =
      { lastOk := (coarsePhase okTrial (127/100) 1000000
          (max (10 + 1) (⌊(10 : ℚ) * (127/100)⌋).toNat) 10).lastOk,
        hi := (coarsePhase okTrial (127/100) 1000000
          (max (10 + 1) (⌊(10 : ℚ) * (127/100)⌋).toNat) 10).hi,
        probes := 10 :: (coarsePhase okTrial (127/100) 1000000
          (max (10 + 1) (⌊(10 : ℚ) * (127/100)⌋).toNat) 10).probes } :=
  (C3_next_rate okTrial (127/100) 1000000 10 0).2 (by norm_num) rfl

/-- C3 counterexample to the claim as stated: at rate 10 with growth factor
1.27 the code advances to `int(max(11, 12.7)) = 12`, while
`max(11, round(12.7)) = 13` — truncation, not rounding to nearest. -/
theorem C3_counterexample :
    (coarsePhase okTrial (127/100) 12 10 0).probes = [10, 12] ∧
    max ((10 : ℤ) + 1) (round ((10 : ℚ) * (127/100))) = 13 := by
  constructor
  · have h1 : nextRate (127/100 : ℚ) 10 = 12 := by
      norm_num [nextRate_eq_max]
      decide
    have h2 : nextRate (127/100 : ℚ) 12 = 15 := by
      norm_num [nextRate_eq_max]
      decide
    rw [coarsePhase_succ _ _ _ (by norm_num) rfl, h1,
      coarsePhase_succ _ _ _ (by norm_num) rfl, h2,
      coarsePhase_stop _ _ _ (by norm_num)]
  · norm_num [round_eq]

/-- C5: in the refinement phase each step probes `mid = floor((lo+hi)/2)`,
moves `lo` to `mid` on success and `hi` to `mid` on failure, the loop stops
exactly when `hi - lo ≤ max(100, floor(0.02 * max(1, lo)))`, and the final
`lo` is what `mainSearch` reports whenever the coarse phase observed a
failing `hi`. -/
theorem C5_refinement (trial : ℕ → Bool) (growth : ℚ)
    (startRate maxRate lo hiR : ℕ) :
    (hiR - lo ≤ tolerance lo →
      refinePhase trial lo hiR = { lo := lo, hi := hiR, probes := [] }) ∧
    (tolerance lo < hiR - lo →
      refinePhase trial lo hiR =
        if trial ((lo + hiR) / 2) then
          { lo := (refinePhase trial ((lo + hiR) / 2) hiR).lo,
            hi := (refinePhase trial ((lo + hiR) / 2) hiR).hi,
            probes := (lo + hiR) / 2 :: (refinePhase trial ((lo + hiR) / 2) hiR).probes }
        else
          { lo := (refinePhase trial lo ((lo + hiR) / 2)).lo,
            hi := (refinePhase trial lo ((lo + hiR) / 2)).hi,
            probes := (lo + hiR) / 2 :: (refinePhase trial lo ((lo + hiR) / 2)).probes }) ∧
    (∀ hFail : ℕ,
      (coarsePhase trial growth maxRate startRate 0).hi = some hFail →
      mainSearch trial growth startRate maxRate =
        SearchOutcome.estimate
          (refinePhase trial (coarsePhase trial growth maxRate startRate 0).lastOk
            hFail).lo) := by
  refine ⟨fun h => refinePhase_stop trial h, fun h => refinePhase_step trial h,
    fun hFail hop => ?_⟩
  simp only [mainSearch, hop]
  simp

/-- C5 witness: for the bracket `[500, 562)` the gap 62 is within the stop
tolerance `max(100, floor(0.02*500)) = 100`, so the refinement stops at once. -/
theorem C5_witness :
    refinePhase (stepTrial 600) 500 562 = { lo := 500, hi := 562, probes := [] } :=
  (C5_refinement (stepTrial 600) 2 1 1 500 562).1 (by rw [tolerance_eq]; decide)

/-- C10: for every growth factor the coarse-phase update advances the rate
by at least 1 per iteration, so the coarse phase runs at most
`maxRate - startRate + 1` trials. -/
theorem C10_coarse_terminates (trial : ℕ → Bool) (growth : ℚ)
    (startRate maxRate : ℕ) :
    (∀ r : ℕ, r + 1 ≤ nextRate growth r) ∧
    (1 ≤ startRate → startRate ≤ maxRate →
      (coarsePhase trial growth maxRate startRate 0).probes.length ≤
        maxRate - startRate + 1) := by
  refine ⟨fun r => nextRate_ge growth r, fun h1 h2 => ?_⟩
  have hlen := coarsePhase_probes_length trial growth
    (maxRate + 1 - startRate) maxRate startRate 0 (le_refl _)
  omega

/-- C10 witness: growth 1/2, rates 1..5, all-succeeding trials — at most 5
coarse trials run. -/
theorem C10_witness :
    (coarsePhase okTrial (1/2) 5 1 0).probes.length ≤ 5 - 1 + 1 :=
  (C10_coarse_terminates okTrial (1/2) 1 5).2 (by norm_num) (by norm_num)

/-- Reason codes attached to a failing trial by `run_perftest` in
`test_rabbitmq.py`: the strings `no_data`, `ratio_below_<success_ratio>`
and `p95_over_<p95_limit_ms>ms` (the threshold is embedded in the text). -/
inductive Reason where
  | noData : Reason
  | ratioBelow : ℚ → Reason
  | p95Over : ℤ → Reason
deriving DecidableEq

/-- Embedding of the stability decision in `run_perftest` of
`test_rabbitmq.py` (the block headed `success = True; note_bits = []`):
if `avg_sent <= 0` fail with `no_data`; else compute
`ratio = avg_recv / avg_sent` and append `ratio_below_...` when
`ratio < success_ratio`, and append `p95_over_...` when
`worst_p95 >= 0 and worst_p95 > p95_limit_ms`.  The boolean is the
`success` flag, false exactly when some reason was appended. -/
def classifyStability (sr : ℚ) (pl : ℤ) (avgSent avgRecv : ℚ) (wp : ℤ) :
    Bool × List Reason :=
  if avgSent ≤ 0 then (false, [Reason.noData])
  else
    let ratio := avgRecv / avgSent
    let bits1 : List Reason :=
      if ratio < sr then [Reason.ratioBelow sr] else []
    let bits2 : List Reason :=
      if 0 ≤ wp ∧ pl < wp then [Reason.p95Over pl] else []
    ((bits1 ++ bits2).isEmpty, bits1 ++ bits2)

/-- C4: the stability classification — `no_data` exactly when
`avg_sent ≤ 0`; otherwise the ratio reason exactly when
`avg_recv / avg_sent < success_ratio` and the latency reason exactly when
`worst_p95 ≥ 0` and `worst_p95 > p95_limit_ms`; success iff the reason set
is empty iff none of the failure conditions holds; `worst_p95 = -1` never
triggers the latency reason. -/
theorem C4_stability_classification (sr : ℚ) (pl : ℤ) (avgSent avgRecv : ℚ)
    (wp : ℤ) :
    (avgSent ≤ 0 →
      classifyStability sr pl avgSent avgRecv wp = (false, [Reason.noData])) ∧
    (0 < avgSent →
      (Reason.ratioBelow sr ∈ (classifyStability sr pl avgSent avgRecv wp).2 ↔
        avgRecv / avgSent < sr)) ∧
    (0 < avgSent →
      (Reason.p95Over pl ∈ (classifyStability sr pl avgSent avgRecv wp).2 ↔
        (0 ≤ wp ∧ pl < wp))) ∧
    ((classifyStability sr pl avgSent avgRecv wp).1 = true ↔
      (classifyStability sr pl avgSent avgRecv wp).2 = []) ∧
    ((classifyStability sr pl avgSent avgRecv wp).1 = true ↔
      (0 < avgSent ∧ ¬(avgRecv / avgSent < sr) ∧ ¬(0 ≤ wp ∧ pl < wp))) ∧
    (wp = -1 → Reason.p95Over pl ∉ (classifyStability sr pl avgSent avgRecv wp).2) := by
  by_cases hs : avgSent ≤ 0 <;>
    by_cases h1 : avgRecv / avgSent < sr <;>
      by_cases h2 : 0 ≤ wp ∧ pl < wp <;>
        simp [classifyStability, hs, h1, h2] <;>
          first
            | omega
            | exact not_le.mp hs

/-- C4 witness: avg_sent = 100, avg_recv = 99 (ratio 0.99 ≥ 0.95) but
worst_p95 = 2500 > 2000, so the `p95_over` reason is attached. -/
theorem C4_witness :
    Reason.p95Over 2000 ∈ (classifyStability (95/100) 2000 100 99 2500).2 :=
  ((C4_stability_classification (95/100) 2000 100 99 2500).2.2.1
    (by norm_num)).mpr (by norm_num)

/-- Removal of thousands separators before numeric conversion, embedding
`m.group("sent").replace(",", "")` in `run_perftest` of `test_rabbitmq.py`. -/
def stripSeps (s : List Char) : List Char := s.filter (fun c => c ≠ ',')

/-- Python `int()` applied to a string of decimal digits. -/
def digitsToNat (s : List Char) : ℕ :=
  s.foldl (fun n c => 10 * n + (c.toNat - 48)) 0

/-- One parsed row of the per-second `timeseries` built by `run_perftest`
in `test_rabbitmq.py` from a compact output line. -/
structure TimeSample where
  timeS : ℚ
  sentMsgS : ℕ
  receivedMsgS : ℕ
  p50Ms : ℤ
  p95Ms : ℤ
  p99Ms : ℤ
deriving DecidableEq

/-- Embedding of `factor = 0.001 if unit in ("µs", "μs", "us") else 1.0`
in `run_perftest` of `test_rabbitmq.py`. -/
def unitFactor (u : String) : ℚ :=
  if u = "µs" ∨ u = "μs" ∨ u = "us" then 1/1000 else 1

/-- Python's built-in `round` to an integer on an exact rational: round to
the nearest integer with ties going to the even neighbor (banker's
rounding), which is Python's documented behavior. -/
def pyRound (q : ℚ) : ℤ :=
  if Int.fract q < 1/2 then ⌊q⌋
  else if 1/2 < Int.fract q then ⌊q⌋ + 1
  else if ⌊q⌋ % 2 = 0 then ⌊q⌋ else ⌊q⌋ + 1

lemma pyRound_ties_to_even :
    pyRound (5/2) = 2 ∧ pyRound (1/2) = 0 ∧ pyRound (3/2) = 2 ∧
      pyRound (17/10) = 2 := by
  refine ⟨?_, ?_, ?_, ?_⟩ <;> norm_num [pyRound, Int.fract]

/-- Embedding of the per-line processing in `run_perftest` of
`test_rabbitmq.py` applied to the captured groups of `COMPACT_LINE_RE`:
strip commas from the sent/received counts and convert with `int()`;
when the slash-separated latency list has exactly 5 entries take
`p50 = int(round(lat[1] * factor))`, `p95 = int(round(lat[3] * factor))`,
`p99 = int(round(lat[4] * factor))` — Python `round`, i.e. nearest with
ties to even (`pyRound`) — else set all three to `-1`. -/
def parseCompactSample (tsec : ℚ) (sentStr recvStr : List Char)
    (latParts : List ℕ) (u : String) : TimeSample :=
  let sent := digitsToNat (stripSeps sentStr)
  let recv := digitsToNat (stripSeps recvStr)
  let factor := unitFactor u
  if latParts.length = 5 then
    { timeS := tsec, sentMsgS := sent, receivedMsgS := recv,
      p50Ms := pyRound ((latParts.getD 1 0 : ℚ) * factor),
      p95Ms := pyRound ((latParts.getD 3 0 : ℚ) * factor),
      p99Ms := pyRound ((latParts.getD 4 0 : ℚ) * factor) }
  else
    { timeS := tsec, sentMsgS := sent, receivedMsgS := recv,
      p50Ms := -1, p95Ms := -1, p99Ms := -1 }

/-- C7 (amended): thousands separators are stripped from the sent/received
counts before conversion (inserting a separator never changes the parsed
count); with exactly 5 latency entries, index 1/3/4 become p50/p95/p99,
each multiplied by 0.001 for a microsecond unit variant and by 1.0 for ms
and then rounded to the nearest integer with ties to even (Python
`int(round(...))`); with any other entry count all three are the
sentinel -1. -/
theorem C7_compact_line (tsec : ℚ) (sentStr recvStr : List Char)
    (latParts : List ℕ) (u : String) :
    ((parseCompactSample tsec sentStr recvStr latParts u).sentMsgS =
        digitsToNat (stripSeps sentStr) ∧
      (parseCompactSample tsec sentStr recvStr latParts u).receivedMsgS =
        digitsToNat (stripSeps recvStr)) ∧
    (∀ a b : List Char,
      digitsToNat (stripSeps (a ++ [','] ++ b)) =
        digitsToNat (stripSeps (a ++ b))) ∧
    ((u = "µs" ∨ u = "μs" ∨ u = "us") → unitFactor u = 1/1000) ∧
    (u = "ms" → unitFactor u = 1) ∧
    (latParts.length = 5 →
      (parseCompactSample tsec sentStr recvStr latParts u).p50Ms =
        pyRound ((latParts.getD 1 0 : ℚ) * unitFactor u) ∧
      (parseCompactSample tsec sentStr recvStr latParts u).p95Ms =
        pyRound ((latParts.getD 3 0 : ℚ) * unitFactor u) ∧
      (parseCompactSample tsec sentStr recvStr latParts u).p99Ms =
        pyRound ((latParts.getD 4 0 : ℚ) * unitFactor u)) ∧
    (latParts.length ≠ 5 →
      (parseCompactSample tsec sentStr recvStr latParts u).p50Ms = -1 ∧
      (parseCompactSample tsec sentStr recvStr latParts u).p95Ms = -1 ∧
      (parseCompactSample tsec sentStr recvStr latParts u).p99Ms = -1) := by
  refine ⟨?_, ?_, ?_, ?_, ?_, ?_⟩
  · by_cases h5 : latParts.length = 5 <;> simp [parseCompactSample, h5]
  · intro a b
    simp [stripSeps, List.filter_append]
  · intro hu
    rcases hu with hu | hu | hu <;> simp [unitFactor, hu]
  · intro hu
    subst hu
    simp [unitFactor]
  · intro h5
    simp [parseCompactSample, h5]
  · intro h5
    simp [parseCompactSample, h5]

/-- C7 witness: sent count "173,920" parses to 173920 after separator
stripping; a 5-entry µs latency list maps index 3 times 0.001, rounded with
ties to even, into p95 — a 2500 µs entry (exact tie at 2.5) is stored as 2,
matching Python's banker's rounding. -/
theorem C7_witness :
    (parseCompactSample 1 ("173,920".toList) ("84,405".toList)
        [1, 25, 189, 1700, 3300] "µs").p95Ms =
      pyRound ((1700 : ℚ) * unitFactor "µs") ∧
    unitFactor "µs" = 1/1000 ∧
    (parseCompactSample 1 [] [] [1, 25, 189, 2500, 3300] "µs").p95Ms = 2 := by
  refine ⟨?_, ?_, ?_⟩
  · exact ((C7_compact_line 1 ("173,920".toList) ("84,405".toList)
      [1, 25, 189, 1700, 3300] "µs").2.2.2.2.1 (by decide)).2.1
  · exact (C7_compact_line 1 [] [] [] "µs").2.2.1 (Or.inl rfl)
  · have hp := ((C7_compact_line 1 [] [] [1, 25, 189, 2500, 3300]
      "µs").2.2.2.2.1 (by decide)).2.1
    rw [hp]
    norm_num [unitFactor, pyRound, Int.fract]

/-- C7 counterexample to the claim as stated: with a 5-entry µs latency list
whose index-3 entry is 1700, the stored p95 is the integer 2 (nearest to
1.7), not 1700 * 0.001 = 1.7 — the claim omits the rounding to integer. -/
theorem C7_counterexample :
    (((parseCompactSample 1 [] [] [1, 25, 189, 1700, 3300] "µs").p95Ms : ℚ) ≠
      (1700 : ℚ) * (1/1000)) ∧
    (parseCompactSample 1 [] [] [1, 25, 189, 1700, 3300] "µs").p95Ms = 2 := by
  have hv : (parseCompactSample 1 [] [] [1, 25, 189, 1700, 3300] "µs").p95Ms = 2 := by
    simp [parseCompactSample, unitFactor]
    norm_num [pyRound, Int.fract]
  rw [hv]
  norm_num

end PerfSearch

namespace PerfNormalize

/-- Python `round(q, 2)` on an exact rational, as used for the presentation
of the derived fields in `normalize_metrics.py`. -/
def round2 (q : ℚ) : ℚ := ((round (q * 100) : ℤ) : ℚ) / 100

/-- Python `round(q, 4)` on an exact rational (used for `loss_ratio`). -/
def round4 (q : ℚ) : ℚ := ((round (q * 10000) : ℤ) : ℚ) / 10000

/-- One raw row consumed by `normalize_db_metrics` in `normalize_metrics.py`.
`tpsExcluding` is `none` when the `tps_excluding` key is missing or NaN
(`pd.isna(row.get('tps_excluding'))`); `returnCode` is `none` when the
`return_code` key is missing (the code then defaults it to 1). -/
structure DbRawRow where
  timestamp : String
  clients : ℚ
  jobs : ℚ
  durationS : ℚ
  tpsExcluding : Option ℚ
  latencyMsAvg : ℚ
  txProcessed : ℚ
  returnCode : Option ℤ
deriving DecidableEq

/-- One normalized DB record as emitted by `normalize_db_metrics` in
`normalize_metrics.py` (and consumed by the DB branch of
`generate_capacity_extrapolation`). -/
structure NormalizedDbRecord where
  component : String
  componentType : String
  timestamp : String
  clients : ℚ
  jobs : ℚ
  durationS : ℚ
  tps : ℚ
  latencyMs : ℚ
  txProcessed : ℚ
  tpsPerCore : ℚ
  latencyMsPerCore : ℚ
  tpsPerClient : ℚ
  tpsPerJob : ℚ
  tpsPerGbMemory : ℚ
  latencyPerTxMs : ℚ
  memoryPerTxBytes : ℚ
  cpuUtilizationPct : ℚ
  testCpuCores : ℕ
  testMemoryGb : ℚ
deriving DecidableEq

/-- The row-acceptance test of `normalize_db_metrics` in
`normalize_metrics.py`: not `pd.isna(tps_excluding)`, `return_code`
(defaulted to 1 when missing) equal to 0, and `tps_excluding > 0`. -/
def dbRowOk (row : DbRawRow) : Bool :=
  decide (row.returnCode.getD 1 = 0) &&
    (match row.tpsExcluding with
     | none => false
     | some t => decide (0 < t))

/-- Embedding of one iteration of the row loop of `normalize_db_metrics` in
`normalize_metrics.py`: skip the row when `tps_excluding` is missing, when
`return_code` (default 1) is nonzero or when `tps <= 0`; otherwise emit the
normalized record with the derived per-core / per-resource fields. -/
def normalizeDbRow (cpuCores : ℕ) (memoryGb : ℚ) (componentName : String)
    (row : DbRawRow) : Option NormalizedDbRecord :=
  match row.tpsExcluding with
  | none => none
  | some tps =>
    if row.returnCode.getD 1 ≠ 0 then none
    else if tps ≤ 0 then none
    else
      let memoryBytes := memoryGb * 1024 * 1024 * 1024
      let estimatedMaxTps := (cpuCores : ℚ) * 500
      some
        { component := componentName
          componentType := "DB"
          timestamp := row.timestamp
          clients := row.clients
          jobs := row.jobs
          durationS := row.durationS
          tps := tps
          latencyMs := row.latencyMsAvg
          txProcessed := row.txProcessed
          tpsPerCore := round2 (tps / (cpuCores : ℚ))
          latencyMsPerCore := round2 row.latencyMsAvg
          tpsPerClient := round2 (if 0 < row.clients then tps / row.clients else 0)
          tpsPerJob := round2 (if 0 < row.jobs then tps / row.jobs else 0)
          tpsPerGbMemory := round2 (tps / memoryGb)
          latencyPerTxMs := round2 row.latencyMsAvg
          memoryPerTxBytes :=
            round2 (if 0 < tps then (memoryBytes * (0.3 : ℚ)) / (tps * 60) else 0)
          cpuUtilizationPct :=
            round2 (if 0 < estimatedMaxTps then
              min 100 ((tps / estimatedMaxTps) * 100) else 0)
          testCpuCores := cpuCores
          testMemoryGb := memoryGb }

/-- Embedding of `normalize_db_metrics` in `normalize_metrics.py`: the row
loop appends one normalized record per accepted row and nothing for a
skipped row. -/
def normalize_db_metrics (cpuCores : ℕ) (memoryGb : ℚ) (componentName : String)
    (rows : List DbRawRow) : List NormalizedDbRecord :=
  rows.filterMap (normalizeDbRow cpuCores memoryGb componentName)

lemma normalizeDbRow_isSome (cpuCores : ℕ) (memoryGb : ℚ) (name : String)
    (row : DbRawRow) :
    (normalizeDbRow cpuCores memoryGb name row).isSome = dbRowOk row := by
  unfold normalizeDbRow dbRowOk
  cases row.tpsExcluding with
  | none => simp
  | some t =>
    by_cases hrc : row.returnCode.getD 1 = 0 <;>
      by_cases ht : t ≤ 0 <;>
        simp [hrc, ht, not_le.mp, le_of_not_le]

lemma normalize_db_metrics_length (cpuCores : ℕ) (memoryGb : ℚ) (name : String) :
    ∀ rows : List DbRawRow,
      (normalize_db_metrics cpuCores memoryGb name rows).length =
        (rows.filter dbRowOk).length := by
  intro rows
  induction rows with
  | nil => rfl
  | cons r rs ih =>
    have hs := normalizeDbRow_isSome cpuCores memoryGb name r
    simp only [normalize_db_metrics, List.filterMap_cons, List.filter_cons]
    cases hf : normalizeDbRow cpuCores memoryGb name r with
    | none =>
      have hok : dbRowOk r = false := by rw [hf] at hs; simpa using hs.symm
      simpa [hok] using ih
    | some rec =>
      have hok : dbRowOk r = true := by rw [hf] at hs; simpa using hs.symm
      simpa [hok] using ih

/-- C8: `normalize_db_metrics` emits a record exactly for rows having
`return_code = 0`, a present `tps_excluding` and `tps_excluding > 0`; all
other rows contribute nothing to the output (one output record per accepted
row, and every output record originates from an accepted input row). -/
theorem C8_db_row_filter (cpuCores : ℕ) (memoryGb : ℚ) (name : String)
    (rows : List DbRawRow) (row : DbRawRow) :
    (dbRowOk row = true ↔
      (row.returnCode.getD 1 = 0 ∧ ∃ t, row.tpsExcluding = some t ∧ 0 < t)) ∧
    ((∃ rec, normalizeDbRow cpuCores memoryGb name row = some rec) ↔
      dbRowOk row = true) ∧
    ((normalize_db_metrics cpuCores memoryGb name rows).length =
      (rows.filter dbRowOk).length) ∧
    (∀ rec ∈ normalize_db_metrics cpuCores memoryGb name rows,
      ∃ r ∈ rows, dbRowOk r = true ∧
        normalizeDbRow cpuCores memoryGb name r = some rec) := by
  refine ⟨?_, ?_, normalize_db_metrics_length cpuCores memoryGb name rows, ?_⟩
  · unfold dbRowOk
    cases row.tpsExcluding <;> simp
  · have hs := normalizeDbRow_isSome cpuCores memoryGb name row
    constructor
    · rintro ⟨rec, hrec⟩
      rw [hrec] at hs
      simpa using hs.symm
    · intro hok
      rw [hok] at hs
      cases hf : normalizeDbRow cpuCores memoryGb name row with
      | none => rw [hf] at hs; simp at hs
      | some rec => exact ⟨rec, rfl⟩
  · intro rec hrec
    rw [normalize_db_metrics, List.mem_filterMap] at hrec
    obtain ⟨r, hr, hfr⟩ := hrec
    refine ⟨r, hr, ?_, hfr⟩
    have hs := normalizeDbRow_isSome cpuCores memoryGb name r
    rw [hfr] at hs
    simpa using hs.symm

/-- A raw DB row accepted by the normalizer (return code 0, positive tps). -/
def demoDbRow : DbRawRow :=
  { timestamp := "20240101_000000", clients := 10, jobs := 4, durationS := 60,
    tpsExcluding := some 1200, latencyMsAvg := 8, txProcessed := 72000,
    returnCode := some 0 }

/-- C8 witness: the demo row (return code 0, tps 1200 > 0) is emitted. -/
theorem C8_witness :
    ∃ rec, normalizeDbRow 4 4 "KingbaseES" demoDbRow = some rec :=
  ((C8_db_row_filter 4 4 "KingbaseES" [] demoDbRow).2.1).mpr
    (by norm_num [dbRowOk, demoDbRow])

/-- One row of the MQ summary CSV consumed by `normalize_mq_metrics` in
`normalize_metrics.py`. -/
structure MqSummaryRow where
  runId : String
  targetRateMsgS : ℚ
  avgSentMsgS : ℚ
  avgReceivedMsgS : ℚ
  worstP95Ms : ℚ
  producers : ℚ
  consumers : ℚ
  sizeBytes : ℚ
  durationS : ℚ
  success : Bool
deriving DecidableEq

/-- One normalized MQ record as emitted by `normalize_mq_metrics` in
`normalize_metrics.py`. -/
structure NormalizedMqRecord where
  component : String
  componentType : String
  runId : String
  targetRateMsgS : ℚ
  durationS : ℚ
  avgSentMsgS : ℚ
  avgReceivedMsgS : ℚ
  worstP95Ms : ℚ
  producers : ℚ
  consumers : ℚ
  sizeBytes : ℚ
  msgPerSecPerCore : ℚ
  msgPerSecPerProducer : ℚ
  msgPerSecPerConsumer : ℚ
  msgPerSecPerGbMemory : ℚ
  msgPerSecPerKb : ℚ
  latencyPerMsgMs : ℚ
  memoryPerMsgBytes : ℚ
  throughputMbps : ℚ
  cpuUtilizationPct : ℚ
  lossRatio : ℚ
  testCpuCores : ℕ
  testMemoryGb : ℚ
deriving DecidableEq

/-- Embedding of `loss_ratio = 1 - (avg_received / avg_sent) if avg_sent > 0
else 0` in `normalize_mq_metrics` of `normalize_metrics.py`. -/
def lossRatioOf (avgSent avgRecv : ℚ) : ℚ :=
  if 0 < avgSent then 1 - avgRecv / avgSent else 0

/-- Embedding of one iteration of the row loop of `normalize_mq_metrics` in
`normalize_metrics.py`: skip the row when `success` is false or
`avg_received_msg_s <= 0`; otherwise emit the normalized record. -/
def normalizeMqRow (cpuCores : ℕ) (memoryGb : ℚ) (componentName : String)
    (row : MqSummaryRow) : Option NormalizedMqRecord :=
  if row.success = false ∨ row.avgReceivedMsgS ≤ 0 then none
  else
    let avgRecv := row.avgReceivedMsgS
    let estimatedMax := (cpuCores : ℚ) * 10000
    some
      { component := componentName
        componentType := "MQ"
        runId := row.runId
        targetRateMsgS := row.targetRateMsgS
        durationS := row.durationS
        avgSentMsgS := row.avgSentMsgS
        avgReceivedMsgS := avgRecv
        worstP95Ms := row.worstP95Ms
        producers := row.producers
        consumers := row.consumers
        sizeBytes := row.sizeBytes
        msgPerSecPerCore := round2 (avgRecv / (cpuCores : ℚ))
        msgPerSecPerProducer :=
          round2 (if 0 < row.producers then avgRecv / row.producers else 0)
        msgPerSecPerConsumer :=
          round2 (if 0 < row.consumers then avgRecv / row.consumers else 0)
        msgPerSecPerGbMemory := round2 (avgRecv / memoryGb)
        msgPerSecPerKb :=
          round2 (if 0 < row.sizeBytes then avgRecv / (row.sizeBytes / 1024) else 0)
        latencyPerMsgMs := round2 row.worstP95Ms
        memoryPerMsgBytes := round2 (row.sizeBytes * (1.5 : ℚ))
        throughputMbps := round2 ((avgRecv * row.sizeBytes) / (1024 * 1024))
        cpuUtilizationPct :=
          round2 (if 0 < estimatedMax then
            min 100 ((avgRecv / estimatedMax) * 100) else 0)
        lossRatio := round4 (lossRatioOf row.avgSentMsgS avgRecv)
        testCpuCores := cpuCores
        testMemoryGb := memoryGb }

/-- Embedding of `normalize_mq_metrics` in `normalize_metrics.py`. -/
def normalize_mq_metrics (cpuCores : ℕ) (memoryGb : ℚ) (componentName : String)
    (rows : List MqSummaryRow) : List NormalizedMqRecord :=
  rows.filterMap (normalizeMqRow cpuCores memoryGb componentName)

/-- A retained MQ summary row with avg_sent 1000 and avg_received 950. -/
def demoMqRow : MqSummaryRow :=
  { runId := "auto-r1000", targetRateMsgS := 1000, avgSentMsgS := 1000,
    avgReceivedMsgS := 950, worstP95Ms := 120, producers := 4, consumers := 4,
    sizeBytes := 1024, durationS := 15, success := true }

/-- C9: for every retained MQ row the loss ratio is
`1 - avg_received/avg_sent` when `avg_sent > 0` and `0` when
`avg_sent ≤ 0`; the emitted field is that value rounded to 4 decimal
places, and for avg_sent 1000, avg_received 950 the emitted value is
0.0500. -/
theorem C9_loss_ratio (avgSent avgRecv : ℚ) :
    (0 < avgSent → lossRatioOf avgSent avgRecv = 1 - avgRecv / avgSent) ∧
    (avgSent ≤ 0 → lossRatioOf avgSent avgRecv = 0) ∧
    (∀ (cpuCores : ℕ) (memoryGb : ℚ) (name : String) (row : MqSummaryRow)
      (rec : NormalizedMqRecord),
      normalizeMqRow cpuCores memoryGb name row = some rec →
      rec.lossRatio = round4 (lossRatioOf row.avgSentMsgS row.avgReceivedMsgS)) ∧
    Option.map NormalizedMqRecord.lossRatio (normalizeMqRow 4 4 "RabbitMQ" demoMqRow) =
      some (0.05 : ℚ) := by
  refine ⟨fun h => by simp [lossRatioOf, h], fun h => by simp [lossRatioOf, not_lt.mpr h],
    ?_, ?_⟩
  · intro cpuCores memoryGb name row rec hrec
    unfold normalizeMqRow at hrec
    by_cases hskip : row.success = false ∨ row.avgReceivedMsgS ≤ 0
    · simp [hskip] at hrec
    · simp only [if_neg hskip, Option.some.injEq] at hrec
      rw [← hrec]
  · have hcond : ¬(demoMqRow.success = false ∨ demoMqRow.avgReceivedMsgS ≤ 0) := by
      norm_num [demoMqRow]
    unfold normalizeMqRow
    rw [if_neg hcond]
    simp only [Option.map_some]
    norm_num [demoMqRow, lossRatioOf, round4, round_eq]

/-- C9 witness: the general clause applied at avg_sent 1000, avg_received
950 gives a loss ratio of 1 - 950/1000. -/
theorem C9_witness : lossRatioOf 1000 950 = 1 - (950 : ℚ) / 1000 :=
  (C9_loss_ratio 1000 950).1 (by norm_num)

/-- The SLO-satisfying rows for the DB branch of
`generate_capacity_extrapolation` in `normalize_metrics.py`:
`component_type == 'DB'` and `latency_ms <= max_latency`. -/
def dbSloFilter (maxLatency : ℚ) (rows : List NormalizedDbRecord) :
    List NormalizedDbRecord :=
  rows.filter (fun r => decide (r.componentType = "DB" ∧ r.latencyMs ≤ maxLatency))

/-- Embedding of pandas `idxmax` followed by `.loc` on `tps_per_core`:
the first row attaining the maximal `tps_per_core`. -/
def bestByTpsPerCore (rows : List NormalizedDbRecord) :
    Option NormalizedDbRecord :=
  match rows with
  | [] => none
  | x :: xs =>
    some (xs.foldl (fun b r => if b.tpsPerCore < r.tpsPerCore then r else b) x)

/-- The DB recommendation row built by `generate_capacity_extrapolation`
in `normalize_metrics.py`. -/
structure DbRecommendation where
  component : String
  targetTps : ℚ
  maxLatencyMs : ℚ
  requiredCpuCores : ℤ
  requiredMemoryGb : ℤ
  estimatedLatencyMs : ℚ
  baselineTpsPerCore : ℚ
  baselineTpsPerGb : ℚ
  baselineTestTps : ℚ
  baselineTestLatencyMs : ℚ
deriving DecidableEq

/-- Embedding of the DB branch of `generate_capacity_extrapolation` in
`normalize_metrics.py`: filter to DB rows within the latency SLO; if any
remain, take the row with maximal `tps_per_core` as baseline and derive
`required_cores = ceil(target_tps / tps_per_core)`,
`required_memory_gb = ceil(target_tps / tps_per_gb_memory)` and the
linearly scaled `estimated_latency`. -/
def generate_capacity_extrapolation_db (rows : List NormalizedDbRecord)
    (targetTps maxLatency : ℚ) : Option DbRecommendation :=
  match bestByTpsPerCore (dbSloFilter maxLatency rows) with
  | none => none
  | some best =>
    some
      { component := best.component
        targetTps := targetTps
        maxLatencyMs := maxLatency
        requiredCpuCores := ⌈targetTps / best.tpsPerCore⌉
        requiredMemoryGb := ⌈targetTps / best.tpsPerGbMemory⌉
        estimatedLatencyMs := round2 (best.latencyMs * (targetTps / best.tps))
        baselineTpsPerCore := best.tpsPerCore
        baselineTpsPerGb := best.tpsPerGbMemory
        baselineTestTps := best.tps
        baselineTestLatencyMs := best.latencyMs }

lemma bestByTpsPerCore_mem {rows : List NormalizedDbRecord}
    {b : NormalizedDbRecord} (h : bestByTpsPerCore rows = some b) : b ∈ rows := by
  match rows with
  | [] => simp [bestByTpsPerCore] at h
  | x :: xs =>
    simp only [bestByTpsPerCore, Option.some.injEq] at h
    subst h
    induction xs generalizing x with
    | nil => simp
    | cons y ys ih =>
      simp only [List.foldl_cons]
      rcases List.mem_cons.mp (ih (if x.tpsPerCore < y.tpsPerCore then y else x))
        with hmem | hmem
      · rw [hmem]
        by_cases hxy : x.tpsPerCore < y.tpsPerCore <;> simp [hxy]
      · simp [hmem]

lemma bestByTpsPerCore_le {rows : List NormalizedDbRecord}
    {b : NormalizedDbRecord} (h : bestByTpsPerCore rows = some b) :
    ∀ r ∈ rows, r.tpsPerCore ≤ b.tpsPerCore := by
  match rows with
  | [] => simp [bestByTpsPerCore] at h
  | x :: xs =>
    simp only [bestByTpsPerCore, Option.some.injEq] at h
    subst h
    induction xs generalizing x with
    | nil => simp
    | cons y ys ih =>
      intro r hr
      simp only [List.foldl_cons]
      rcases List.mem_cons.mp hr with hrx | hr2
      · subst hrx
        have hstep : r.tpsPerCore ≤
            (if r.tpsPerCore < y.tpsPerCore then y else r).tpsPerCore := by
          by_cases hxy : r.tpsPerCore < y.tpsPerCore <;> simp [hxy]
          linarith
        exact le_trans hstep
          (ih (if r.tpsPerCore < y.tpsPerCore then y else r) _
            (List.mem_cons_self _ _))
      · rcases List.mem_cons.mp hr2 with hry | hr3
        · subst hry
          have hstep : r.tpsPerCore ≤
              (if x.tpsPerCore < r.tpsPerCore then r else x).tpsPerCore := by
            by_cases hxy : x.tpsPerCore < r.tpsPerCore <;> simp [hxy]
            linarith
          exact le_trans hstep
            (ih (if x.tpsPerCore < r.tpsPerCore then r else x) _
              (List.mem_cons_self _ _))
        · exact ih (if x.tpsPerCore < y.tpsPerCore then y else x) r
            (List.mem_cons_of_mem _ hr3)

/-- C6: the DB recommendation exists exactly when some record passes the
component-type and latency filter; the chosen baseline is a filtered record
(so a record failing the latency SLO is never the baseline) with maximal
`tps_per_core` among the filtered records, and the required core count is
`ceil(target_tps / baseline tps_per_core)`. -/
theorem C6_capacity_extrapolation (rows : List NormalizedDbRecord)
    (targetTps maxLatency : ℚ) :
    (generate_capacity_extrapolation_db rows targetTps maxLatency = none ↔
      dbSloFilter maxLatency rows = []) ∧
    (∀ rec, generate_capacity_extrapolation_db rows targetTps maxLatency = some rec →
      ∃ best ∈ dbSloFilter maxLatency rows,
        best.componentType = "DB" ∧
        best.latencyMs ≤ maxLatency ∧
        (∀ r ∈ dbSloFilter maxLatency rows, r.tpsPerCore ≤ best.tpsPerCore) ∧
        rec.requiredCpuCores = ⌈targetTps / best.tpsPerCore⌉ ∧
        rec.baselineTpsPerCore = best.tpsPerCore) := by
  constructor
  · cases hlist : dbSloFilter maxLatency rows with
    | nil => simp [generate_capacity_extrapolation_db, hlist, bestByTpsPerCore]
    | cons x xs =>
      simp [generate_capacity_extrapolation_db, hlist, bestByTpsPerCore]
  · intro rec hrec
    unfold generate_capacity_extrapolation_db at hrec
    cases hbest : bestByTpsPerCore (dbSloFilter maxLatency rows) with
    | none => rw [hbest] at hrec; simp at hrec
    | some best =>
      rw [hbest] at hrec
      simp only [Option.some.injEq] at hrec
      have hmem := bestByTpsPerCore_mem hbest
      have hle := bestByTpsPerCore_le hbest
      have hpred := List.of_mem_filter hmem
      rw [decide_eq_true_eq] at hpred
      exact ⟨best, hmem, hpred.1, hpred.2, hle, by rw [← hrec], by rw [← hrec]⟩

/-- A normalized DB record passing a 50 ms latency SLO with 250 tps/core. -/
def dbRecA : NormalizedDbRecord :=
  { component := "KingbaseES", componentType := "DB",
    timestamp := "20240101_000000", clients := 10, jobs := 4, durationS := 60,
    tps := 1000, latencyMs := 10, txProcessed := 60000, tpsPerCore := 250,
    latencyMsPerCore := 10, tpsPerClient := 100, tpsPerJob := 250,
    tpsPerGbMemory := 250, latencyPerTxMs := 10, memoryPerTxBytes := 21474,
    cpuUtilizationPct := 50, testCpuCores := 4, testMemoryGb := 4 }

/-- A normalized DB record with higher tps/core (1000) but latency 100 ms,
failing a 50 ms latency SLO. -/
def dbRecB : NormalizedDbRecord :=
  { dbRecA with
    latencyMs := 100
    latencyMsPerCore := 100
    latencyPerTxMs := 100
    tpsPerCore := 1000 }

/-- C6 witness: with target 5000 tps and a 50 ms SLO, the 100 ms record is
filtered out despite its higher tps/core; the baseline is the 250 tps/core
record and 20 cores are required. -/
theorem C6_witness :
    ∃ best ∈ dbSloFilter 50 [dbRecA, dbRecB],
      best.componentType = "DB" ∧
      best.latencyMs ≤ 50 ∧
      (∀ r ∈ dbSloFilter 50 [dbRecA, dbRecB], r.tpsPerCore ≤ best.tpsPerCore) ∧
      (20 : ℤ) = ⌈(5000 : ℚ) / best.tpsPerCore⌉ ∧
      (250 : ℚ) = best.tpsPerCore := by
  have hsome :
      ∀ rec, generate_capacity_extrapolation_db [dbRecA, dbRecB] 5000 50 = some rec →
        ∃ best ∈ dbSloFilter 50 [dbRecA, dbRecB],
          best.componentType = "DB" ∧
          best.latencyMs ≤ 50 ∧
          (∀ r ∈ dbSloFilter 50 [dbRecA, dbRecB], r.tpsPerCore ≤ best.tpsPerCore) ∧
          rec.requiredCpuCores = ⌈(5000 : ℚ) / best.tpsPerCore⌉ ∧
          rec.baselineTpsPerCore = best.tpsPerCore :=
    (C6_capacity_extrapolation [dbRecA, dbRecB] 5000 50).2
  have hfilter : dbSloFilter 50 [dbRecA, dbRecB] = [dbRecA] := by
    norm_num [dbSloFilter, dbRecA, dbRecB]
  have heval : generate_capacity_extrapolation_db [dbRecA, dbRecB] 5000 50 =
      some
        { component := "KingbaseES", targetTps := 5000, maxLatencyMs := 50,
          requiredCpuCores := 20, requiredMemoryGb := 20,
          estimatedLatencyMs := 50, baselineTpsPerCore := 250,
          baselineTpsPerGb := 250, baselineTestTps := 1000,
          baselineTestLatencyMs := 10 } := by
    rw [generate_capacity_extrapolation_db, hfilter]
    simp only [bestByTpsPerCore, List.foldl_nil, Option.some.injEq]
    norm_num [dbRecA, round2, round_eq]
  obtain ⟨best, hmem, hdb, hlat, hmax, hcores, hbase⟩ := hsome _ heval
  exact ⟨best, hmem, hdb, hlat, hmax, hcores, hbase⟩

end PerfNormalize
